import Mathlib

/-!
Shallow embedding of the Firestarter repository (a Next.js application) in
Lean 4, together with theorems checking the natural-language specification
against the code.

Embedding conventions:
* JavaScript strings are modelled as Lean `String` (or `List Char` where
  character-level reasoning about buffers is required); `substring`/`slice`
  act on characters rather than UTF-16 units.
* JavaScript `number` values that the code only orders or defaults with
  `|| 0` (search scores, quality scores, rate-limit counters) are modelled
  as `Int`.
* `process.env.X` is an `Option String`; JavaScript truthiness of a string
  (`!!s`, `if (s)`) is `s ≠ ""` on `some s` and `false` on `none`.
* Route handlers that perform I/O are modelled as pure functions from their
  inputs (request fields, environment, and the responses of the external
  services they call) to the list of effects they issue, in order, plus the
  response they return.
-/

namespace Firestarter

/-- JavaScript truthiness of a possibly-undefined string
(`undefined` and `""` are falsy). -/
def truthy : Option String → Bool
  | some s => !s.isEmpty
  | none => false

/-- JavaScript `a || b` for a possibly-undefined string `a` with a string
default `b`: yields `b` when `a` is undefined or empty. -/
def orElseStr (a : Option String) (b : String) : String :=
  match a with
  | some s => if s.isEmpty then b else s
  | none => b

/-! ## firestarter.config.ts : AI provider selection -/

/-- The credential environment variables consulted by
`firestarter.config.ts` (server side). -/
structure Env where
  OPENAI_API_KEY : Option String
  ANTHROPIC_API_KEY : Option String
  GOOGLE_AI_STUDIO_API_KEY : Option String
  GROQ_API_KEY : Option String

/-- The four AI providers of `AI_PROVIDERS` in `firestarter.config.ts`. -/
inductive Provider
  | groq
  | openai
  | anthropic
  | google
  deriving DecidableEq, Repr

/-- One entry of the `AI_PROVIDERS` record: the model identifier handed to
the vendor SDK and the `enabled` flag. -/
structure ProviderConfig where
  model : String
  enabled : Bool
  deriving DecidableEq, Repr

/-- `AI_PROVIDERS` from `firestarter.config.ts` (lines 9-26): each provider
is enabled exactly when its credential environment variable is truthy. -/
def AI_PROVIDERS (env : Env) : Provider → ProviderConfig
  | .groq => ⟨"meta-llama/llama-4-scout-17b-16e-instruct", truthy env.GROQ_API_KEY⟩
  | .openai => ⟨"gpt-4o", truthy env.OPENAI_API_KEY⟩
  | .anthropic => ⟨"claude-3-5-sonnet-20241022", truthy env.ANTHROPIC_API_KEY⟩
  | .google => ⟨"gemini-2.5-flash", truthy env.GOOGLE_AI_STUDIO_API_KEY⟩

/-- The error message thrown by `getAIModel` when no provider is enabled. -/
def noProviderMsg : String :=
  "No AI provider configured. Please set OPENAI_API_KEY, ANTHROPIC_API_KEY, GOOGLE_AI_STUDIO_API_KEY, or GROQ_API_KEY"

/-- `getAIModel` from `firestarter.config.ts` (lines 29-40), on the server
side (`typeof window === 'undefined'`): nested `if` chain with priority
OpenAI > Anthropic > Google > Groq; throws when nothing is enabled.
The result pairs the chosen provider with its model identifier. -/
def getAIModel (env : Env) : Except String (Provider × String) :=
  if (AI_PROVIDERS env .openai).enabled then .ok (.openai, (AI_PROVIDERS env .openai).model)
  else if (AI_PROVIDERS env .anthropic).enabled then .ok (.anthropic, (AI_PROVIDERS env .anthropic).model)
  else if (AI_PROVIDERS env .google).enabled then .ok (.google, (AI_PROVIDERS env .google).model)
  else if (AI_PROVIDERS env .groq).enabled then .ok (.groq, (AI_PROVIDERS env .groq).model)
  else .error noProviderMsg

/-- The provider priority order stated by the specification ("consulted in
the fixed order OpenAI, Anthropic, Google, Groq"). Used only to state the
refinement theorem for claim C1. -/
def providerPriority : List Provider := [.openai, .anthropic, .google, .groq]

/-- Modelled from the spec's words, for comparison with `getAIModel`:
return the model of the first enabled provider in `providerPriority`, and
the "No AI provider configured" error when none is enabled. -/
def getAIModelSpec (env : Env) : Except String (Provider × String) :=
  match providerPriority.find? (fun p => (AI_PROVIDERS env p).enabled) with
  | some p => .ok (p, (AI_PROVIDERS env p).model)
  | none => .error noProviderMsg

/-! ## lib/context-processor.ts -/

/-- The `Source` interface of `lib/context-processor.ts`. -/
structure Source where
  url : String
  title : String
  content : Option String
  quality : Option Int
  deriving DecidableEq, Repr

/-- `(b.quality || 0)` / `(a.quality || 0)`: quality with default 0. -/
def qualityVal (s : Source) : Int := s.quality.getD 0

/-- The order imposed by the JavaScript comparator
`(b.quality || 0) - (a.quality || 0)`: `a` may come before `b` exactly when
the comparator is `≤ 0`, i.e. quality is non-increasing. -/
def qualityGe (a b : Source) : Prop := qualityVal b ≤ qualityVal a

instance : DecidableRel qualityGe := fun _ _ => Int.decLe _ _

instance : IsTotal Source qualityGe :=
  ⟨fun a b => (le_total (qualityVal b) (qualityVal a)).imp id id⟩

instance : IsTrans Source qualityGe :=
  ⟨fun _ _ _ hab hbc => le_trans hbc hab⟩

/-- `ContextProcessor.processSources` from `lib/context-processor.ts`
(lines 8-23): keep sources with truthy content longer than 100 characters,
sort by quality descending, return the top 10. `Array.prototype.sort` is a
stable sort, so its output is uniquely determined by the comparator order
`qualityGe` together with stability; it is modelled by the stable
`List.insertionSort qualityGe`. The `_query` argument is kept to mirror
the signature. -/
def processSources (_query : String) (sources : List Source) : List Source :=
  ((sources.filter fun s =>
      match s.content with
      | some c => !c.isEmpty && decide (c.length > 100)
      | none => false).insertionSort qualityGe).take 10

/-! ## lib/storage.ts : index-metadata storage -/

/-- The optional `metadata` object of `IndexMetadata` in `lib/storage.ts`. -/
structure SiteMetadata where
  title : Option String
  description : Option String
  favicon : Option String
  ogImage : Option String
  deriving DecidableEq, Repr

/-- The `IndexMetadata` interface of `lib/storage.ts`. The `namespace`
field is called `nspace` because `namespace` is a Lean keyword. -/
structure IndexMetadata where
  url : String
  nspace : String
  pagesCrawled : Nat
  createdAt : String
  metadata : Option SiteMetadata
  deriving DecidableEq, Repr

/-- The list update performed by `LocalStorageAdapter.saveIndex`
(`lib/storage.ts` lines 43-66): replace the first entry with the same
namespace in place if one exists, otherwise prepend; then keep only the
first 50 entries (`indexes.slice(0, 50)`). -/
def LocalStorageAdapter.saveIndexList
    (indexes : List IndexMetadata) (index : IndexMetadata) : List IndexMetadata :=
  (match indexes.findIdx? (fun i : IndexMetadata => i.nspace == index.nspace) with
    | some k => indexes.set k index
    | none => index :: indexes).take 50

/-- The list update performed by `LocalStorageAdapter.deleteIndex`
(`lib/storage.ts` lines 68-82): keep exactly the entries whose namespace
differs from the given one. -/
def LocalStorageAdapter.deleteIndexList
    (indexes : List IndexMetadata) (ns : String) : List IndexMetadata :=
  indexes.filter (fun i => i.nspace != ns)

/-- The list update performed by `RedisStorageAdapter.saveIndex`
(`lib/storage.ts` lines 121-143) on the `firestarter:indexes` list; the
adapter additionally writes the per-namespace key, which does not affect
the list. The list logic is identical to the localStorage adapter's. -/
def RedisStorageAdapter.saveIndexList
    (indexes : List IndexMetadata) (index : IndexMetadata) : List IndexMetadata :=
  (match indexes.findIdx? (fun i : IndexMetadata => i.nspace == index.nspace) with
    | some k => indexes.set k index
    | none => index :: indexes).take 50

/-- The list update performed by `RedisStorageAdapter.deleteIndex`
(`lib/storage.ts` lines 145-158) on the `firestarter:indexes` list. -/
def RedisStorageAdapter.deleteIndexList
    (indexes : List IndexMetadata) (ns : String) : List IndexMetadata :=
  indexes.filter (fun i => i.nspace != ns)

/-- The invariant of the stored index-metadata list: at most 50 entries,
and at most one entry per namespace. -/
def IndexInv (l : List IndexMetadata) : Prop :=
  l.length ≤ 50 ∧ (l.map (fun i => i.nspace)).Nodup

instance (l : List IndexMetadata) : Decidable (IndexInv l) := by
  unfold IndexInv; infer_instance

/-! ## app/api/firestarter/query/route.ts : the RAG query route -/

/-- The `content` part of the `SearchDocument` interface of the query
route (lines 17-32). -/
structure DocContent where
  text : Option String
  title : Option String
  url : Option String
  deriving DecidableEq, Repr

/-- The `metadata` part of the `SearchDocument` interface of the query
route. The `namespace` field is called `nspace` (Lean keyword). -/
structure DocMetadata where
  nspace : Option String
  title : Option String
  pageTitle : Option String
  url : Option String
  sourceURL : Option String
  description : Option String
  deriving DecidableEq, Repr

/-- The `SearchDocument` interface of the query route: a hit returned by
the shared Upstash vector-search index. -/
structure SearchDocument where
  content : Option DocContent
  metadata : Option DocMetadata
  score : Option Int
  deriving DecidableEq, Repr

/-- `doc.metadata?.namespace`. -/
def docNamespace (d : SearchDocument) : Option String :=
  d.metadata.bind (fun m => m.nspace)

/-- JavaScript `hay.includes(needle)`: substring containment. -/
def strIncludes (hay needle : String) : Bool :=
  decide (needle.toList <:+: hay.toList)

/-- Document selection of the query route (lines 44-107): filter the
primary search results to the request's namespace; if none survive, filter
the fallback search results to the namespace, keep those whose lowercased
content, title, or url contains the lowercased query, and fall back to all
namespace documents when that content filter is empty. (When a search call
throws, the route sets `documents = []`, which coincides with both searches
returning no namespace matches.) -/
def selectDocuments (ns query : String) (searchResults fallbackResults : List SearchDocument) :
    List SearchDocument :=
  let documents := searchResults.filter (fun doc => docNamespace doc == some ns)
  if documents.isEmpty then
    let namespaceDocs := fallbackResults.filter (fun doc => docNamespace doc == some ns)
    if namespaceDocs.isEmpty then []
    else
      let queryLower := query.toLower
      let contentFiltered := namespaceDocs.filter (fun doc =>
        strIncludes (orElseStr (doc.content.bind (fun c => c.text)) "").toLower queryLower ||
        strIncludes (orElseStr (doc.content.bind (fun c => c.title)) "").toLower queryLower ||
        strIncludes (orElseStr (doc.content.bind (fun c => c.url)) "").toLower queryLower)
      if contentFiltered.isEmpty then namespaceDocs else contentFiltered
  else documents

/-- The `TransformedDocument` interface of the query route (lines
207-213). -/
structure TransformedDocument where
  content : String
  url : String
  title : String
  description : String
  score : Int
  deriving DecidableEq, Repr

/-- JavaScript `s.substring(0, n)`: the first `n` characters. -/
def substrTo (s : String) (n : Nat) : String := String.mk (s.data.take n)

/-- The `documents.map(...)` transformation of the query route (lines
215-241): structured content with metadata headers, defaulted title, url,
description, and score (`result.score || 0`). -/
def transform (result : SearchDocument) : TransformedDocument :=
  let title := orElseStr (result.content.bind (fun c => c.title))
    (orElseStr (result.metadata.bind (fun m => m.title))
      (orElseStr (result.metadata.bind (fun m => m.pageTitle)) "Untitled"))
  let description := orElseStr (result.metadata.bind (fun m => m.description)) ""
  let url := orElseStr (result.content.bind (fun c => c.url))
    (orElseStr (result.metadata.bind (fun m => m.url))
      (orElseStr (result.metadata.bind (fun m => m.sourceURL)) ""))
  let rawContent := orElseStr (result.content.bind (fun c => c.text)) ""
  { content := "TITLE: " ++ title ++ "\nDESCRIPTION: " ++ description ++
      "\nSOURCE: " ++ url ++ "\n\n" ++ rawContent
    url := url
    title := title
    description := description
    score := result.score.getD 0 }

/-- The order imposed by the comparator `(b.score || 0) - (a.score || 0)`
(line 253): non-increasing score. -/
def scoreGe (a b : TransformedDocument) : Prop := b.score ≤ a.score

instance : DecidableRel scoreGe := fun _ _ => Int.decLe _ _

instance : IsTotal TransformedDocument scoreGe :=
  ⟨fun a b => (le_total b.score a.score).imp id id⟩

instance : IsTrans TransformedDocument scoreGe :=
  ⟨fun _ _ _ hab hbc => le_trans hbc hab⟩

/-- `relevantDocs` (lines 252-254): stable sort by score descending
(`Array.prototype.sort` is stable, modelled by `insertionSort`), then the
top 20. -/
def relevantDocs (docs : List TransformedDocument) : List TransformedDocument :=
  (docs.insertionSort scoreGe).take 20

/-- `docsToUse` (line 259): `relevantDocs` when non-empty, otherwise the
first 10 transformed documents. -/
def docsToUse (docs : List TransformedDocument) : List TransformedDocument :=
  if (relevantDocs docs).length > 0 then relevantDocs docs else docs.take 10

/-- `contextDocs` (line 262): the top 10 of `docsToUse`. -/
def contextDocs (docs : List TransformedDocument) : List TransformedDocument :=
  (docsToUse docs).take 10

/-- The per-document context pieces (lines 274-283): skip documents with
empty content, truncate the rest to 1500 characters and append `...`. -/
def contextPieces (docs : List TransformedDocument) : List String :=
  (contextDocs docs).filterMap (fun doc =>
    if doc.content.isEmpty then none else some (substrTo doc.content 1500 ++ "..."))

/-- JavaScript `Array.prototype.join(sep)`. -/
def joinSep (sep : String) : List String → String
  | [] => ""
  | [a] => a
  | a :: b :: rest => a ++ sep ++ joinSep sep (b :: rest)

/-- The assembled context (line 284): pieces joined with the fixed
separator. -/
def buildContext (docs : List TransformedDocument) : String :=
  joinSep "\n\n---\n\n" (contextPieces docs)

/-- A `sources` list entry (lines 295-299 and 333-337). -/
structure SourceItem where
  url : String
  title : String
  snippet : String
  deriving DecidableEq, Repr

/-- `docsToUse.map(...)`: url, title, and a 200-character snippet. -/
def mkSourceItem (doc : TransformedDocument) : SourceItem :=
  ⟨doc.url, doc.title, substrTo doc.content 200 ++ "..."⟩

/-- The externally visible effects issued by the query route, in program
order: vector-search calls and OpenAI chat-completion calls (the keyword
extraction and the final answer generation). -/
inductive QueryEffect
  | search (q : String) (limit : Nat)
  | keywordExtraction (q : String)
  | generate (systemPrompt userPrompt : String) (stream : Bool)
  deriving DecidableEq, Repr

/-- The responses of the query route distinguished by the claims. -/
inductive QueryResponse
  | badRequest
  | noDocs (stream : Bool)
  | noApiKey
  | contextTooShort (sources : List SourceItem)
  | success (stream : Bool) (sources : List SourceItem)
  deriving DecidableEq, Repr

/-- The system prompt of the generation call (lines 314-319 / 388-393). -/
def genSystemPrompt : String :=
  "You are a helpful assistant that answers questions based on the provided context from a website. \n              - Answer questions comprehensively using the context provided\n              - Use bullet points or numbered lists when appropriate for clarity\n              - Cite specific information from the sources when relevant\n              - If the context doesn't contain enough information, say so\n              - Be concise but thorough"

/-- The user message of the generation call (lines 323 / 397): the
question followed by the assembled context. -/
def genUserPrompt (query context : String) : String :=
  "Question: " ++ query ++ "\n\nRelevant content from the website:\n" ++ context ++
    "\n\nPlease provide a comprehensive answer based on this information."

/-- JavaScript `s.trim()`: strip leading and trailing whitespace
(defined over the character list so that it evaluates by kernel
reduction). -/
def jsTrim (s : String) : String :=
  String.mk (((s.data.dropWhile Char.isWhitespace).reverse.dropWhile
    Char.isWhitespace).reverse)

/-- `POST` of `app/api/firestarter/query/route.ts`, as a pure function of
the request fields, the `OPENAI_API_KEY` environment variable, and the two
vector-search responses, yielding the issued effects in order and the
response. The keyword-extraction call's result only feeds logging, so it
is not a parameter. -/
def queryPOST (query ns : String) (stream : Bool) (openaiKey : Option String)
    (searchResults fallbackResults : List SearchDocument) :
    List QueryEffect × QueryResponse :=
  if query.isEmpty || ns.isEmpty then ([], .badRequest)
  else
    let documents := selectDocuments ns query searchResults fallbackResults
    let searchEffects :=
      QueryEffect.search (jsTrim (ns ++ " " ++ query)) 100 ::
        (if (searchResults.filter (fun doc => docNamespace doc == some ns)).isEmpty then
          [QueryEffect.search ns 100]
        else [])
    if documents.isEmpty then (searchEffects, .noDocs stream)
    else if !truthy openaiKey then (searchEffects, .noApiKey)
    else
      let tdocs := documents.map transform
      let du := docsToUse tdocs
      let context := buildContext tdocs
      let sources := du.map mkSourceItem
      if context.length < 100 then
        (searchEffects ++ [.keywordExtraction query], .contextTooShort sources)
      else
        (searchEffects ++ [.keywordExtraction query,
            .generate genSystemPrompt (genUserPrompt query context) stream],
          .success stream sources)

/-! ## app/api/v1/chat/completions/route.ts : the OpenAI-compatible proxy -/

/-- JavaScript `s.startsWith(pre)`. -/
def jsStartsWith (s pre : String) : Bool := pre.data.isPrefixOf s.data

/-- JavaScript `s.substring(n)`: the characters from index `n` on. -/
def substrFrom (s : String) (n : Nat) : String := String.mk (s.data.drop n)

/-- The outgoing requests the chat-completions proxy can issue: calls to
the external Groq and OpenAI APIs, and the internal call to the
firestarter query route. -/
inductive ProxyEffect
  | externalGroq
  | externalOpenAI
  | internalQuery
  deriving DecidableEq, Repr

/-- The responses of the chat-completions proxy distinguished by the
claims. -/
inductive ProxyResponse
  | jsonError (status : Nat) (message : String) (errType : String)
  | forwarded
  | completion
  deriving DecidableEq, Repr

/-- The provider dispatch of `POST` in
`app/api/v1/chat/completions/route.ts` (lines 18-229): the `X-Use-Groq`
header is consulted first, then `X-Use-OpenAI`, then the
`firecrawl-<domain>` model logic. Missing provider keys short-circuit to
a 500 error before any outgoing request. The non-streaming OpenAI branch
issues the main call and the follow-up-questions call. -/
def completionsPOST (useGroqHdr useOpenAIHdr : Option String)
    (groqKey openaiKey : Option String) (model : Option String) (stream : Bool) :
    List ProxyEffect × ProxyResponse :=
  let useGroq := useGroqHdr == some "true"
  let useOpenAI := useOpenAIHdr == some "true"
  if useGroq then
    if !truthy groqKey then
      ([], .jsonError 500 "Groq API key not configured" "server_error")
    else ([.externalGroq], .forwarded)
  else if useOpenAI then
    if !truthy openaiKey then
      ([], .jsonError 500 "OpenAI API key not configured" "server_error")
    else if stream then ([.externalOpenAI], .forwarded)
    else ([.externalOpenAI, .externalOpenAI], .forwarded)
  else
    let nspace := match model with
      | some m => if jsStartsWith m "firecrawl-" then
          substrFrom m ("firecrawl-" : String).length
        else ""
      | none => ""
    if nspace.isEmpty then
      ([], .jsonError 400 "Invalid model specified. Use format: firecrawl-<domain>"
        "invalid_request_error")
    else ([.internalQuery], .completion)

/-! ## app/api/scrape/route.ts : the scrape route -/

/-- The result object returned by `rateLimit.limit(ip)`. -/
structure RateLimitResult where
  success : Bool
  limit : Nat
  remaining : Nat
  deriving DecidableEq, Repr

/-- The steps of the scrape route visible to claim C7: the rate-limit
check, the read of the API key, and the outgoing scrape call. -/
inductive ScrapeEffect
  | limitCheck (ip : String)
  | readApiKey
  | scrapeCall
  deriving DecidableEq, Repr

/-- The responses of the scrape route distinguished by the claims. -/
inductive ScrapeResponse
  | rateLimited (status : Nat) (success : Bool) (headers : List (String × String))
  | configError (status : Nat)
  | invalidRequest (status : Nat)
  | ok
  deriving DecidableEq, Repr

/-- JavaScript `s.split(',')[0]`. -/
def jsSplitComma0 (s : String) : String :=
  String.mk (s.data.takeWhile (fun c => c ≠ ','))

/-- The client IP (`app/api/scrape/route.ts` lines 24-26):
`x-forwarded-for` up to the first comma, else `x-real-ip`, else
`127.0.0.1`. -/
def clientIp (xff xrip : Option String) : String :=
  orElseStr (xff.map jsSplitComma0) (orElseStr xrip "127.0.0.1")

/-- `POST` of `app/api/scrape/route.ts` (lines 21-81) as a pure function:
`limiterResult` is `some r` when a rate limiter is configured
(`config.rateLimits.scrape`), with `r` the result of `limit(ip)`; then
the API key is resolved from the environment or the
`X-Firecrawl-API-Key` header and the scrape is issued. -/
def scrapePOST (limiterResult : Option RateLimitResult) (xff xrip : Option String)
    (envKey hdrKey : Option String) (hasUrl hasUrls : Bool) :
    List ScrapeEffect × ScrapeResponse :=
  let rest : List ScrapeEffect × ScrapeResponse :=
    if !truthy envKey && !truthy hdrKey then ([.readApiKey], .configError 500)
    else if hasUrl then ([.readApiKey, .scrapeCall], .ok)
    else if hasUrls then ([.readApiKey, .scrapeCall], .ok)
    else ([.readApiKey], .invalidRequest 400)
  match limiterResult with
  | some r =>
    if !r.success then
      ([.limitCheck (clientIp xff xrip)],
        .rateLimited 429 false
          [("X-RateLimit-Limit", toString r.limit),
            ("X-RateLimit-Remaining", toString r.remaining)])
    else (.limitCheck (clientIp xff xrip) :: rest.1, rest.2)
  | none => rest

/-! ## Theorems for claims C1 and C9 -/

/-- **C1.** For every server-side environment, `getAIModel` returns the
model of the first enabled provider in the fixed order OpenAI, Anthropic,
Google, Groq, where a provider is enabled exactly when its credential
environment variable is (truthily) set; in particular, if only the Google
key is set the Google model `gemini-2.5-flash` is returned, and if no key
is set `getAIModel` throws the "No AI provider configured" error. -/
theorem C1_provider_priority :
    (∀ env : Env, getAIModel env = getAIModelSpec env) ∧
    (∀ env : Env, truthy env.GOOGLE_AI_STUDIO_API_KEY = true →
      truthy env.OPENAI_API_KEY = false → truthy env.ANTHROPIC_API_KEY = false →
      truthy env.GROQ_API_KEY = false →
      getAIModel env = .ok (.google, "gemini-2.5-flash")) ∧
    (∀ env : Env, truthy env.OPENAI_API_KEY = false →
      truthy env.ANTHROPIC_API_KEY = false →
      truthy env.GOOGLE_AI_STUDIO_API_KEY = false →
      truthy env.GROQ_API_KEY = false →
      getAIModel env = .error noProviderMsg) := by
  refine ⟨fun env => ?_, fun env hg ho ha hq => ?_, fun env ho ha hg hq => ?_⟩
  · cases ho : truthy env.OPENAI_API_KEY <;>
      cases ha : truthy env.ANTHROPIC_API_KEY <;>
        cases hg : truthy env.GOOGLE_AI_STUDIO_API_KEY <;>
          cases hq : truthy env.GROQ_API_KEY <;>
            simp [getAIModel, getAIModelSpec, AI_PROVIDERS, providerPriority,
              List.find?, ho, ha, hg, hq]
  · simp [getAIModel, AI_PROVIDERS, ho, ha, hg, hq]
  · simp [getAIModel, AI_PROVIDERS, ho, ha, hg, hq]

/-- Witness for C1: with only the Google key set, the Google model is
chosen; with no key set, the error is thrown. -/
theorem C1_provider_priority_witness :
    getAIModel ⟨none, none, some "g", none⟩ = .ok (.google, "gemini-2.5-flash") ∧
    getAIModel ⟨none, none, none, none⟩ = .error noProviderMsg :=
  ⟨C1_provider_priority.2.1 ⟨none, none, some "g", none⟩ (by decide) (by decide)
      (by decide) (by decide),
    C1_provider_priority.2.2 ⟨none, none, none, none⟩ (by decide) (by decide)
      (by decide) (by decide)⟩

/-- **C9.** `ContextProcessor.processSources` returns a list that
(i) contains only input elements whose content is present and longer than
100 characters, (ii) is sorted in non-increasing order of quality (missing
quality read as 0), (iii) has at most 10 elements, and (iv) does not depend
on the query argument. -/
theorem C9_processSources (q : String) (sources : List Source) :
    (∀ s ∈ processSources q sources,
      s ∈ sources ∧ ∃ c, s.content = some c ∧ c.length > 100) ∧
    (processSources q sources).Pairwise qualityGe ∧
    (processSources q sources).length ≤ 10 ∧
    (∀ q' : String, processSources q sources = processSources q' sources) := by
  refine ⟨fun s hs => ?_, ?_, ?_, fun q' => rfl⟩
  · have hs' : s ∈ (sources.filter fun s =>
        match s.content with
        | some c => !c.isEmpty && decide (c.length > 100)
        | none => false) :=
      (List.perm_insertionSort qualityGe _).mem_iff.mp (List.mem_of_mem_take hs)
    have hmem := List.mem_of_mem_filter hs'
    have hprop := List.of_mem_filter hs'
    refine ⟨hmem, ?_⟩
    cases hc : s.content with
    | none => rw [hc] at hprop; simp at hprop
    | some c =>
      rw [hc] at hprop
      simp only [Bool.and_eq_true, decide_eq_true_eq] at hprop
      exact ⟨c, rfl, hprop.2⟩
  · exact (List.sorted_insertionSort qualityGe _).sublist (List.take_sublist _ _)
  · unfold processSources
    rw [List.length_take]
    exact min_le_left _ _

/-- Witness for C9: a concrete source with 101 characters of content
survives `processSources` and the theorem's conclusions hold for it. -/
theorem C9_processSources_witness :
    (⟨"u", "t", some "aaaaaaaaaaaaaaaaaaaaaaaaaaaaaaaaaaaaaaaaaaaaaaaaaaaaaaaaaaaaaaaaaaaaaaaaaaaaaaaaaaaaaaaaaaaaaaaaaaaaa", some 5⟩ : Source) ∈
      [(⟨"u", "t", some "aaaaaaaaaaaaaaaaaaaaaaaaaaaaaaaaaaaaaaaaaaaaaaaaaaaaaaaaaaaaaaaaaaaaaaaaaaaaaaaaaaaaaaaaaaaaaaaaaaaaa", some 5⟩ : Source)] ∧
    ∃ c, (⟨"u", "t", some "aaaaaaaaaaaaaaaaaaaaaaaaaaaaaaaaaaaaaaaaaaaaaaaaaaaaaaaaaaaaaaaaaaaaaaaaaaaaaaaaaaaaaaaaaaaaaaaaaaaaa", some 5⟩ : Source).content = some c ∧ c.length > 100 :=
  (C9_processSources "q"
      [⟨"u", "t", some "aaaaaaaaaaaaaaaaaaaaaaaaaaaaaaaaaaaaaaaaaaaaaaaaaaaaaaaaaaaaaaaaaaaaaaaaaaaaaaaaaaaaaaaaaaaaaaaaaaaaa", some 5⟩]).1
    _ (by decide)

/-! ## Theorems for claims C2, C5, C4 -/

/-- Every document selected by the query route belongs to the request's
namespace. -/
theorem mem_selectDocuments_namespace (ns query : String)
    (sr fr : List SearchDocument) (doc : SearchDocument)
    (hdoc : doc ∈ selectDocuments ns query sr fr) : docNamespace doc = some ns := by
  unfold selectDocuments at hdoc
  dsimp only at hdoc
  split at hdoc
  · split at hdoc
    · exact absurd hdoc (List.not_mem_nil doc)
    · split at hdoc
      · exact eq_of_beq (by simpa using List.of_mem_filter hdoc)
      · exact eq_of_beq (by simpa using List.of_mem_filter (List.mem_filter.mp hdoc).1)
  · exact eq_of_beq (by simpa using List.of_mem_filter hdoc)

/-- Every element of `docsToUse` comes from the input list. -/
theorem mem_of_mem_docsToUse (L : List TransformedDocument)
    (td : TransformedDocument) (htd : td ∈ docsToUse L) : td ∈ L := by
  unfold docsToUse relevantDocs at htd
  split at htd
  · exact (List.perm_insertionSort scoreGe L).mem_iff.mp (List.mem_of_mem_take htd)
  · exact List.mem_of_mem_take htd

/-- **C2.** Every document used by the query route belongs to the
request's namespace: all selected documents (primary path and both
fallback sub-paths) have `metadata.namespace` equal to the requested
namespace, and every transformed document appearing in the context/source
pipeline (`docsToUse`) arises from such a document. -/
theorem C2_namespace_isolation (ns query : String) (sr fr : List SearchDocument) :
    (∀ doc ∈ selectDocuments ns query sr fr, docNamespace doc = some ns) ∧
    (∀ td ∈ docsToUse ((selectDocuments ns query sr fr).map transform),
      ∃ doc, doc ∈ selectDocuments ns query sr fr ∧ td = transform doc ∧
        docNamespace doc = some ns) := by
  refine ⟨fun doc hdoc => mem_selectDocuments_namespace ns query sr fr doc hdoc,
    fun td htd => ?_⟩
  obtain ⟨doc, hdoc, hd⟩ := List.mem_map.mp (mem_of_mem_docsToUse _ td htd)
  exact ⟨doc, hdoc, hd.symm, mem_selectDocuments_namespace ns query sr fr doc hdoc⟩

/-- Witness for C2: a concrete selected document carries the requested
namespace even though a foreign-namespace hit was returned by the index. -/
theorem C2_namespace_isolation_witness :
    docNamespace ⟨none, some ⟨some "ns1", none, none, none, none, none⟩, some 3⟩ = some "ns1" :=
  (C2_namespace_isolation "ns1" "q"
      [⟨none, some ⟨some "ns1", none, none, none, none, none⟩, some 3⟩,
        ⟨none, some ⟨some "ns2", none, none, none, none, none⟩, some 9⟩] []).1
    ⟨none, some ⟨some "ns1", none, none, none, none, none⟩, some 3⟩ (by decide)

/-- **C5.** The query route applies no ranking of its own: the documents
selected as context are the stable score-descending sort of the retrieved
documents truncated to the top 10 (and `docsToUse` the top 20); the
selection is sorted in non-increasing score order, is a prefix of a
permutation of the retrieved documents, and every document left out scores
no higher than every selected one. -/
theorem C5_no_custom_ranking (docs : List TransformedDocument) :
    docsToUse docs = (docs.insertionSort scoreGe).take 20 ∧
    contextDocs docs = (docs.insertionSort scoreGe).take 10 ∧
    (contextDocs docs).Pairwise scoreGe ∧
    (∃ rest, (contextDocs docs ++ rest).Perm docs) ∧
    (∀ a ∈ contextDocs docs, ∀ b ∈ (docs.insertionSort scoreGe).drop 10, scoreGe a b) := by
  have hperm := List.perm_insertionSort scoreGe docs
  have hsorted := List.sorted_insertionSort scoreGe docs
  have h1 : docsToUse docs = (docs.insertionSort scoreGe).take 20 := by
    unfold docsToUse relevantDocs
    split
    · rfl
    · next h =>
      have hl : ((docs.insertionSort scoreGe).take 20).length = 0 := by omega
      rw [List.length_take, List.length_insertionSort] at hl
      have hd : docs = [] := List.eq_nil_of_length_eq_zero (by omega)
      subst hd
      simp
  have h2 : contextDocs docs = (docs.insertionSort scoreGe).take 10 := by
    unfold contextDocs
    rw [h1, List.take_take]
    norm_num
  refine ⟨h1, h2, ?_, ?_, ?_⟩
  · rw [h2]
    exact hsorted.sublist (List.take_sublist _ _)
  · refine ⟨(docs.insertionSort scoreGe).drop 10, ?_⟩
    rw [h2, List.take_append_drop]
    exact hperm
  · intro a ha b hb
    rw [h2] at ha
    have hp := hsorted
    rw [← List.take_append_drop 10 (docs.insertionSort scoreGe)] at hp
    exact (List.pairwise_append.mp hp).2.2 a ha b hb

/-- Witness for C5: on a concrete retrieval of 11 documents with
descending scores, the first document is selected for context, the last is
not, and the selected one scores at least as high. -/
theorem C5_no_custom_ranking_witness :
    scoreGe ⟨"c1", "", "", "", 11⟩ ⟨"c11", "", "", "", 1⟩ :=
  (C5_no_custom_ranking
      [⟨"c1", "", "", "", 11⟩, ⟨"c2", "", "", "", 10⟩, ⟨"c3", "", "", "", 9⟩,
        ⟨"c4", "", "", "", 8⟩, ⟨"c5", "", "", "", 7⟩, ⟨"c6", "", "", "", 6⟩,
        ⟨"c7", "", "", "", 5⟩, ⟨"c8", "", "", "", 4⟩, ⟨"c9", "", "", "", 3⟩,
        ⟨"c10", "", "", "", 2⟩, ⟨"c11", "", "", "", 1⟩]).2.2.2.2
    ⟨"c1", "", "", "", 11⟩ (by decide) ⟨"c11", "", "", "", 1⟩ (by decide)

/-- Length of a character-truncated string. -/
theorem substrTo_length_le (s : String) (n : Nat) : (substrTo s n).length ≤ n := by
  have h : (substrTo s n).length = (s.data.take n).length := rfl
  rw [h, List.length_take]
  exact min_le_left _ _

/-- Joining at most `c`-sized pieces with the context separator is bounded
linearly in the number of pieces. -/
theorem joinSep_ctx_length_le : ∀ (L : List String), (∀ p ∈ L, p.length ≤ 1503) →
    (joinSep "\n\n---\n\n" L).length ≤ L.length * 1503 + (L.length - 1) * 7
  | [], _ => by simp [joinSep]
  | [a], h => by simpa [joinSep] using h a (by simp)
  | a :: b :: r, h => by
    have ha := h a (List.mem_cons_self a _)
    have hrec := joinSep_ctx_length_le (b :: r) (fun p hp => h p (List.mem_cons_of_mem a hp))
    have hs : ("\n\n---\n\n" : String).length = 7 := rfl
    simp only [joinSep, String.length_append, hs, List.length_cons] at hrec ⊢
    omega

/-- **C4.** The context assembled by the query route is bounded by a
constant: it is built from at most 10 documents, each contributing at most
1503 characters (1500 truncated characters plus `...`), joined by a
7-character separator, hence at most 15093 characters in total, regardless
of the number and size of retrieved documents. -/
theorem C4_bounded_context (docs : List TransformedDocument) :
    (contextDocs docs).length ≤ 10 ∧
    (∀ p ∈ contextPieces docs, p.length ≤ 1503) ∧
    (buildContext docs).length ≤ 15093 := by
  have hlen : (contextDocs docs).length ≤ 10 := by
    unfold contextDocs
    rw [List.length_take]
    exact min_le_left _ _
  have hpiece : ∀ p ∈ contextPieces docs, p.length ≤ 1503 := by
    intro p hp
    unfold contextPieces at hp
    obtain ⟨d, _, hpd⟩ := List.mem_filterMap.mp hp
    split at hpd
    · exact absurd hpd (by simp)
    · have hpe : substrTo d.content 1500 ++ "..." = p := by simpa using hpd
      rw [← hpe, String.length_append]
      have h3 : ("..." : String).length = 3 := rfl
      have := substrTo_length_le d.content 1500
      omega
  have hcount : (contextPieces docs).length ≤ 10 :=
    le_trans (List.length_filterMap_le _ _) hlen
  refine ⟨hlen, hpiece, ?_⟩
  have hb := joinSep_ctx_length_le (contextPieces docs) hpiece
  unfold buildContext
  omega

/-- Witness for C4: on a concrete oversized retrieval the context stays
within the bound and a concrete piece is at most 1503 characters. -/
theorem C4_bounded_context_witness :
    (buildContext [⟨"abc", "u", "t", "d", 1⟩]).length ≤ 15093 ∧
    ("abc..." : String).length ≤ 1503 :=
  ⟨(C4_bounded_context [⟨"abc", "u", "t", "d", 1⟩]).2.2,
    (C4_bounded_context [⟨"abc", "u", "t", "d", 1⟩]).2.1 "abc..." (by decide)⟩

/-! ## Theorem for claim C8 -/

/-- In a trace made of searches followed by a search-free tail, every
search index precedes every generation index. -/
theorem search_lt_generate (S T : List QueryEffect)
    (hS : ∀ e ∈ S, ∃ a b, e = QueryEffect.search a b)
    (hT : ∀ a b, QueryEffect.search a b ∉ T)
    (i j : Nat) (sys usr : String) (st : Bool) (a : String) (b : Nat)
    (hi : (S ++ T)[i]? = some (.generate sys usr st))
    (hj : (S ++ T)[j]? = some (.search a b)) : j < i := by
  have hiS : ¬ i < S.length := by
    intro h
    rw [List.getElem?_append_left h] at hi
    obtain ⟨h', he⟩ := List.getElem?_eq_some.mp hi
    obtain ⟨x, y, hxy⟩ := hS _ (he ▸ List.getElem_mem h')
    exact QueryEffect.noConfusion hxy
  have hjS : j < S.length := by
    by_contra h
    rw [List.getElem?_append_right (by omega)] at hj
    obtain ⟨h', he⟩ := List.getElem?_eq_some.mp hj
    exact hT a b (he ▸ List.getElem_mem h')
  omega

/-- Case analysis of the query route's effect trace: it is empty, or a
block of search calls, optionally followed by the keyword extraction and
optionally the single generation call carrying the assembled context. -/
theorem queryPOST_trace_shape (query ns : String) (stream : Bool)
    (key : Option String) (sr fr : List SearchDocument) :
    (queryPOST query ns stream key sr fr).1 = [] ∨
    ∃ S : List QueryEffect, (∀ e ∈ S, ∃ a b, e = QueryEffect.search a b) ∧
      ((queryPOST query ns stream key sr fr).1 = S ∨
       (queryPOST query ns stream key sr fr).1 = S ++ [.keywordExtraction query] ∨
       (queryPOST query ns stream key sr fr).1 = S ++ [.keywordExtraction query,
         .generate genSystemPrompt
           (genUserPrompt query
             (buildContext ((selectDocuments ns query sr fr).map transform))) stream]) := by
  unfold queryPOST
  dsimp only
  have hsearch : ∀ e ∈ (QueryEffect.search (jsTrim (ns ++ " " ++ query)) 100 ::
      (if (sr.filter (fun doc => docNamespace doc == some ns)).isEmpty then
        [QueryEffect.search ns 100] else [])),
      ∃ a b, e = QueryEffect.search a b := by
    intro e he
    rcases List.mem_cons.mp he with h | h
    · exact ⟨_, _, h⟩
    · split at h
      · rcases List.mem_singleton.mp h with rfl
        exact ⟨_, _, rfl⟩
      · exact absurd h (List.not_mem_nil e)
  split
  · exact Or.inl rfl
  · split
    · exact Or.inr ⟨_, hsearch, Or.inl rfl⟩
    · split
      · exact Or.inr ⟨_, hsearch, Or.inl rfl⟩
      · split
        · exact Or.inr ⟨_, hsearch, Or.inr (Or.inl rfl)⟩
        · exact Or.inr ⟨_, hsearch, Or.inr (Or.inr rfl)⟩

/-- **C8.** Retrieval strictly precedes generation: in the query route's
effect trace, every vector-search call comes before the chat-completion
call that generates the answer, and that call's user prompt is the user's
question followed by the assembled context verbatim. -/
theorem C8_retrieval_before_generation (query ns : String) (stream : Bool)
    (key : Option String) (sr fr : List SearchDocument)
    (i j : Nat) (sys usr : String) (st : Bool) (q' : String) (lim : Nat)
    (hi : (queryPOST query ns stream key sr fr).1[i]? =
      some (.generate sys usr st))
    (hj : (queryPOST query ns stream key sr fr).1[j]? =
      some (.search q' lim)) :
    j < i ∧
    usr = "Question: " ++ query ++ "\n\nRelevant content from the website:\n" ++
      buildContext ((selectDocuments ns query sr fr).map transform) ++
      "\n\nPlease provide a comprehensive answer based on this information." := by
  rcases queryPOST_trace_shape query ns stream key sr fr with h | ⟨S, hS, h | h | h⟩
  · rw [h] at hi
    simp at hi
  · rw [h] at hi
    obtain ⟨h', he⟩ := List.getElem?_eq_some.mp hi
    obtain ⟨x, y, hxy⟩ := hS _ (he ▸ List.getElem_mem h')
    exact QueryEffect.noConfusion hxy
  · rw [h] at hi
    have hiS : ¬ i < S.length := by
      intro hlt
      rw [List.getElem?_append_left hlt] at hi
      obtain ⟨h', he⟩ := List.getElem?_eq_some.mp hi
      obtain ⟨x, y, hxy⟩ := hS _ (he ▸ List.getElem_mem h')
      exact QueryEffect.noConfusion hxy
    rw [List.getElem?_append_right (by omega)] at hi
    rcases hm : i - S.length with _ | m
    · rw [hm] at hi
      simp at hi
    · rw [hm] at hi
      simp at hi
  · constructor
    · rw [h] at hi hj
      refine search_lt_generate S _ hS ?_ i j sys usr st q' lim hi hj
      intro a b hmem
      simp at hmem
    · rw [h] at hi
      have hiS : ¬ i < S.length := by
        intro hlt
        rw [List.getElem?_append_left hlt] at hi
        obtain ⟨h', he⟩ := List.getElem?_eq_some.mp hi
        obtain ⟨x, y, hxy⟩ := hS _ (he ▸ List.getElem_mem h')
        exact QueryEffect.noConfusion hxy
      rw [List.getElem?_append_right (by omega)] at hi
      rcases hm : i - S.length with _ | m
      · rw [hm] at hi
        simp at hi
      · rw [hm] at hi
        rcases m with _ | m
        · simp only [List.getElem?_cons_succ, List.getElem?_cons_zero,
            Option.some.injEq, QueryEffect.generate.injEq] at hi
          exact hi.2.1.symm
        · simp at hi

set_option maxRecDepth 4000 in
/-- Witness for C8: a concrete request that reaches generation has its
search at index 0 and its generation at index 2, and the generation prompt
is the question followed by the context. -/
theorem C8_retrieval_before_generation_witness :
    (0 : Nat) < 2 ∧
    genUserPrompt "what"
        (buildContext ((selectDocuments "ns1" "what"
          [⟨some ⟨some "aaaaaaaaaaaaaaaaaaaaaaaaaaaaaaaaaaaaaaaaaaaaaaaaaaaaaaaaaaaaaaaaaaaaaaaaaaaaaaaaaaaaaaaaaaaaaaaaaaaa", none, none⟩,
              some ⟨some "ns1", none, none, none, none, none⟩, some 3⟩] []).map transform)) =
      "Question: " ++ "what" ++ "\n\nRelevant content from the website:\n" ++
        buildContext ((selectDocuments "ns1" "what"
          [⟨some ⟨some "aaaaaaaaaaaaaaaaaaaaaaaaaaaaaaaaaaaaaaaaaaaaaaaaaaaaaaaaaaaaaaaaaaaaaaaaaaaaaaaaaaaaaaaaaaaaaaaaaaaa", none, none⟩,
              some ⟨some "ns1", none, none, none, none, none⟩, some 3⟩] []).map transform) ++
        "\n\nPlease provide a comprehensive answer based on this information." :=
  C8_retrieval_before_generation "what" "ns1" false (some "sk")
    [⟨some ⟨some "aaaaaaaaaaaaaaaaaaaaaaaaaaaaaaaaaaaaaaaaaaaaaaaaaaaaaaaaaaaaaaaaaaaaaaaaaaaaaaaaaaaaaaaaaaaaaaaaaaaa", none, none⟩,
        some ⟨some "ns1", none, none, none, none, none⟩, some 3⟩] []
    2 0 genSystemPrompt
    (genUserPrompt "what"
      (buildContext ((selectDocuments "ns1" "what"
        [⟨some ⟨some "aaaaaaaaaaaaaaaaaaaaaaaaaaaaaaaaaaaaaaaaaaaaaaaaaaaaaaaaaaaaaaaaaaaaaaaaaaaaaaaaaaaaaaaaaaaaaaaaaaaa", none, none⟩,
            some ⟨some "ns1", none, none, none, none, none⟩, some 3⟩] []).map transform)))
    false (jsTrim ("ns1" ++ " " ++ "what")) 100 (by decide) (by decide)

/-! ## Theorem for claim C10 -/

/-- Setting position `k` of a list to the value it already holds leaves
the list unchanged. -/
theorem set_self_of_getElem {α : Type _} {l : List α} {k : Nat} {a : α}
    (hk : k < l.length) (ha : l[k] = a) : l.set k a = l := by
  apply List.ext_getElem (by simp)
  intro i h1 h2
  rw [List.getElem_set]
  split
  · next h => exact h ▸ ha.symm
  · rfl

/-- The shared save logic of both adapters preserves the invariant. -/
theorem saveIndexList_inv (l : List IndexMetadata) (idx : IndexMetadata)
    (h : (l.map (fun i => i.nspace)).Nodup) :
    IndexInv (LocalStorageAdapter.saveIndexList l idx) := by
  refine ⟨?_, ?_⟩
  · unfold LocalStorageAdapter.saveIndexList
    rw [List.length_take]
    exact min_le_left _ _
  · unfold LocalStorageAdapter.saveIndexList
    cases hf : l.findIdx? (fun i => i.nspace == idx.nspace) with
    | some k =>
      obtain ⟨hk, hp, -⟩ := List.findIdx?_eq_some_iff_getElem.mp hf
      have hset : (l.set k idx).map (fun i => i.nspace) = l.map (fun i => i.nspace) := by
        rw [List.map_set]
        exact set_self_of_getElem (by simpa using hk)
          (by simpa using eq_of_beq hp)
      simp only [hf, ← List.map_take]
      exact ((hset ▸ h).sublist ((List.take_sublist _ _).map _))
    | none =>
      have hnotin : idx.nspace ∉ l.map (fun i => i.nspace) := by
        intro hmem
        obtain ⟨i, hi, hie⟩ := List.mem_map.mp hmem
        have := List.findIdx?_eq_none_iff.mp hf i hi
        rw [hie] at this
        simp at this
      simp only [hf, ← List.map_take]
      exact (List.nodup_cons.mpr ⟨hnotin, h⟩).sublist ((List.take_sublist _ _).map _)

/-- The shared delete logic of both adapters preserves the invariant. -/
theorem deleteIndexList_inv (l : List IndexMetadata) (ns : String)
    (h : IndexInv l) : IndexInv (LocalStorageAdapter.deleteIndexList l ns) := by
  refine ⟨le_trans (List.length_filter_le _ _) h.1, ?_⟩
  exact h.2.sublist ((List.filter_sublist _).map _)

/-- **C10.** The empty stored list satisfies the invariant (at most 50
entries, at most one entry per namespace); `saveIndex` and `deleteIndex`
preserve it in both the localStorage and the Redis adapter; and
`deleteIndex` keeps exactly the entries whose namespace differs from the
given one. -/
theorem C10_index_storage_invariant :
    IndexInv [] ∧
    (∀ (l : List IndexMetadata) (idx : IndexMetadata), IndexInv l →
      IndexInv (LocalStorageAdapter.saveIndexList l idx) ∧
      IndexInv (RedisStorageAdapter.saveIndexList l idx)) ∧
    (∀ (l : List IndexMetadata) (ns : String), IndexInv l →
      IndexInv (LocalStorageAdapter.deleteIndexList l ns) ∧
      IndexInv (RedisStorageAdapter.deleteIndexList l ns)) ∧
    (∀ (l : List IndexMetadata) (ns : String) (i : IndexMetadata),
      (i ∈ LocalStorageAdapter.deleteIndexList l ns ↔ i ∈ l ∧ i.nspace ≠ ns) ∧
      (i ∈ RedisStorageAdapter.deleteIndexList l ns ↔ i ∈ l ∧ i.nspace ≠ ns)) := by
  refine ⟨⟨by simp, by simp⟩, fun l idx h => ⟨?_, ?_⟩, fun l ns h => ⟨?_, ?_⟩,
    fun l ns i => ⟨?_, ?_⟩⟩
  · exact saveIndexList_inv l idx h.2
  · exact saveIndexList_inv l idx h.2
  · exact deleteIndexList_inv l ns h
  · exact deleteIndexList_inv l ns h
  · simp [LocalStorageAdapter.deleteIndexList, List.mem_filter, bne_iff_ne]
  · simp [RedisStorageAdapter.deleteIndexList, List.mem_filter, bne_iff_ne]

/-- Witness for C10: saving a concrete entry into a concrete valid store
and deleting from it preserve the invariant. -/
theorem C10_index_storage_invariant_witness :
    IndexInv (LocalStorageAdapter.saveIndexList
      [⟨"https://a.com", "a-com-1", 3, "2024-01-01", none⟩]
      ⟨"https://b.com", "b-com-2", 5, "2024-01-02", none⟩) ∧
    IndexInv (RedisStorageAdapter.deleteIndexList
      [⟨"https://a.com", "a-com-1", 3, "2024-01-01", none⟩] "a-com-1") :=
  ⟨(C10_index_storage_invariant.2.1
      [⟨"https://a.com", "a-com-1", 3, "2024-01-01", none⟩]
      ⟨"https://b.com", "b-com-2", 5, "2024-01-02", none⟩ (by decide)).1,
    (C10_index_storage_invariant.2.2.1
      [⟨"https://a.com", "a-com-1", 3, "2024-01-01", none⟩] "a-com-1" (by decide)).2⟩

/-! ## The streaming transform of the chat-completions proxy (claim C3)

The `firecrawl-<domain>` streaming branch (route lines 250-307) reads the
upstream body chunk by chunk, keeps the text after the last newline in a
buffer, and processes every completed line: lines of the form `0:"..."`
whose payload parses as a JSON string become OpenAI-format
`chat.completion.chunk` events; everything else is skipped. Strings are
modelled as `List Char` here so that the buffer arithmetic reduces in the
kernel. -/

/-- JavaScript `buffer.split('\n')`: always returns at least one piece;
the last piece is the text after the last newline. -/
def splitNl : List Char → List (List Char)
  | [] => [[]]
  | c :: rest =>
    let r := splitNl rest
    if c = '\n' then [] :: r
    else (c :: r.headD []) :: r.tail

/-- One JSON string-escape character (`\" \\ \/ \b \f \n \r \t`). -/
def jsonEscChar? (c : Char) : Option Char :=
  if c = '"' then some '"'
  else if c = '\\' then some '\\'
  else if c = '/' then some '/'
  else if c = 'b' then some (Char.ofNat 8)
  else if c = 'f' then some (Char.ofNat 12)
  else if c = 'n' then some '\n'
  else if c = 'r' then some (Char.ofNat 13)
  else if c = 't' then some (Char.ofNat 9)
  else none

/-- Value of one hexadecimal digit. -/
def hexVal? (c : Char) : Option Nat :=
  if '0' ≤ c ∧ c ≤ '9' then some (c.toNat - '0'.toNat)
  else if 'a' ≤ c ∧ c ≤ 'f' then some (c.toNat - 'a'.toNat + 10)
  else if 'A' ≤ c ∧ c ≤ 'F' then some (c.toNat - 'A'.toNat + 10)
  else none

/-- `JSON.parse` of a string literal, after the opening quote: succeeds
exactly when the closing quote is the final character, every control
character is escaped, and every escape is legal. (Code points from
`\uXXXX` escapes are mapped through `Char.ofNat`; JavaScript's UTF-16
surrogate handling only affects the decoded characters, not whether
parsing succeeds.) -/
def jsonStringBody : List Char → Option (List Char)
  | [] => none
  | '"' :: rest => if rest.isEmpty then some [] else none
  | '\\' :: e :: rest =>
    if e = 'u' then
      match rest with
      | a :: b :: c :: d :: rest' =>
        match hexVal? a, hexVal? b, hexVal? c, hexVal? d with
        | some ha, some hb, some hc, some hd =>
          (jsonStringBody rest').map
            (fun tail => Char.ofNat (((ha * 16 + hb) * 16 + hc) * 16 + hd) :: tail)
        | _, _, _, _ => none
      | _ => none
    else
      match jsonEscChar? e with
      | some ec => (jsonStringBody rest).map (fun tail => ec :: tail)
      | none => none
  | c :: rest =>
    if c.toNat < 32 then none
    else (jsonStringBody rest).map (fun tail => c :: tail)

/-- `JSON.parse` restricted to string literals (the payloads here are
`"..."`). -/
def jsonParseString? : List Char → Option (List Char)
  | '"' :: rest => jsonStringBody rest
  | _ => none

/-- JavaScript `line.trim()` on a character list. -/
def trimChars (l : List Char) : List Char :=
  ((l.dropWhile Char.isWhitespace).reverse.dropWhile Char.isWhitespace).reverse

/-- The per-line processing of the transform loop (route lines 273-299):
skip blank lines, require the `0:` prefix, require the payload to start
and end with a quote, and emit the JSON-parsed payload — parse failures
are silently skipped. -/
def parseContentLine (line : List Char) : Option (List Char) :=
  if (trimChars line).isEmpty then none
  else if line.take 2 = ['0', ':'] then
    let content := line.drop 2
    if content.head? == some '"' && content.getLast? == some '"' then
      jsonParseString? content
    else none
  else none

/-- The OpenAI-format server-sent events emitted by the transform:
the initial chunk (delta role `assistant`, empty content), one content
chunk per parsed line, the final chunk (empty delta, finish_reason
`stop`), and the literal `data: [DONE]` line. -/
inductive ChatChunk
  | initial
  | content (text : List Char)
  | final
  | done
  deriving DecidableEq, Repr

/-- Events produced by a block of completed lines. -/
def processLines (lines : List (List Char)) : List ChatChunk :=
  lines.filterMap (fun l => (parseContentLine l).map ChatChunk.content)

/-- The `while (true)` read loop (route lines 264-300): append the chunk
to the buffer, split on newlines, keep the last piece as the new buffer
(`buffer = lines.pop() || ''`), process the completed lines; when the
reader is done the remaining buffer is discarded. -/
def streamLoop : List (List Char) → List Char → List ChatChunk
  | [], _ => []
  | c :: cs, buffer =>
    let lines := splitNl (buffer ++ c)
    processLines lines.dropLast ++ streamLoop cs (lines.getLastD [])

/-- The whole streaming transform (route lines 257-306): initial chunk,
the loop's events, final chunk, `data: [DONE]`. -/
def transformStream (chunks : List (List Char)) : List ChatChunk :=
  ChatChunk.initial :: streamLoop chunks [] ++ [ChatChunk.final, ChatChunk.done]

/-! ## Theorem for claim C3 -/

theorem splitNl_ne_nil (s : List Char) : splitNl s ≠ [] := by
  cases s with
  | nil => simp [splitNl]
  | cons c rest =>
    simp only [splitNl]
    split <;> simp

theorem splitNl_no_newline (s : List Char) (h : '\n' ∉ s) : splitNl s = [s] := by
  induction s with
  | nil => rfl
  | cons c rest ih =>
    have hc : c ≠ '\n' := fun he => h (he ▸ List.mem_cons_self c rest)
    have hr : '\n' ∉ rest := fun hm => h (List.mem_cons_of_mem c hm)
    simp only [splitNl, ih hr]
    simp [hc]

theorem splitNl_pieces (s : List Char) : ∀ p ∈ splitNl s, '\n' ∉ p := by
  induction s with
  | nil =>
    intro p hp
    simp [splitNl] at hp
    subst hp
    simp
  | cons c rest ih =>
    intro p hp
    simp only [splitNl] at hp
    by_cases hc : c = '\n'
    · rw [if_pos hc] at hp
      rcases List.mem_cons.mp hp with rfl | hp'
      · simp
      · exact ih p hp'
    · rw [if_neg hc] at hp
      rcases List.mem_cons.mp hp with rfl | hp'
      · intro hmem
        rcases List.mem_cons.mp hmem with he | hm
        · exact hc he.symm
        · have hh : (splitNl rest).headD [] ∈ splitNl rest := by
            rcases hsr : splitNl rest with _ | ⟨l0, ls⟩
            · exact absurd hsr (splitNl_ne_nil rest)
            · simp
          exact ih _ hh hm
      · rcases hsr : splitNl rest with _ | ⟨l0, ls⟩
        · exact absurd hsr (splitNl_ne_nil rest)
        · rw [hsr] at hp'
          exact ih p (hsr ▸ List.mem_cons_of_mem l0 hp')

theorem splitNl_getLastD_no_newline (s : List Char) : '\n' ∉ (splitNl s).getLastD [] := by
  have h := splitNl_pieces s
  rcases hsr : splitNl s with _ | ⟨l0, ls⟩
  · exact absurd hsr (splitNl_ne_nil s)
  · have hmem : (l0 :: ls).getLastD [] ∈ l0 :: ls := by
      rw [List.getLastD_cons]
      exact List.getLastD_mem_cons ls l0
    exact h _ (hsr ▸ hmem)

theorem splitNl_append (a b : List Char) :
    splitNl (a ++ b) =
      (splitNl a).dropLast ++
        ((splitNl a).getLastD [] ++ (splitNl b).headD []) :: (splitNl b).tail := by
  induction a with
  | nil =>
    rcases hb : splitNl b with _ | ⟨h0, t⟩
    · exact absurd hb (splitNl_ne_nil b)
    · simp [splitNl, hb]
  | cons c rest ih =>
    rcases hr : splitNl rest with _ | ⟨l0, ls⟩
    · exact absurd hr (splitNl_ne_nil rest)
    by_cases hc : c = '\n'
    · subst hc
      have lhs : splitNl (('\n' :: rest) ++ b) = [] :: splitNl (rest ++ b) := by
        simp [List.cons_append, splitNl]
      have rhs : splitNl ('\n' :: rest) = [] :: (l0 :: ls) := by
        simp [splitNl, hr]
      rw [lhs, ih, hr, rhs]
      simp [List.getLastD_cons]
    · have lhs : splitNl ((c :: rest) ++ b) =
          (c :: (splitNl (rest ++ b)).headD []) :: (splitNl (rest ++ b)).tail := by
        simp [List.cons_append, splitNl, hc]
      have rhs : splitNl (c :: rest) = (c :: l0) :: ls := by
        simp [splitNl, hr, hc]
      rw [lhs, ih, hr, rhs]
      rcases ls with _ | ⟨l1, ls'⟩
      · rcases hbb : splitNl b with _ | ⟨h0, t⟩
        · exact absurd hbb (splitNl_ne_nil b)
        simp [hbb, List.getLastD_cons]
      · simp [List.getLastD_cons]

theorem processLines_append (l1 l2 : List (List Char)) :
    processLines (l1 ++ l2) = processLines l1 ++ processLines l2 :=
  List.filterMap_append l1 l2 _

theorem streamLoop_eq (cs : List (List Char)) : ∀ (buffer : List Char), '\n' ∉ buffer →
    streamLoop cs buffer = processLines ((splitNl (buffer ++ cs.flatten)).dropLast) := by
  induction cs with
  | nil =>
    intro buffer hb
    simp only [streamLoop, List.flatten_nil, List.append_nil]
    rw [splitNl_no_newline buffer hb]
    simp [processLines]
  | cons c cs ih =>
    intro buffer hb
    have hins : '\n' ∉ (splitNl (buffer ++ c)).getLastD [] := splitNl_getLastD_no_newline _
    simp only [streamLoop]
    rw [ih _ hins]
    rw [List.flatten_cons, ← List.append_assoc]
    rw [splitNl_append (buffer ++ c) cs.flatten]
    rw [List.dropLast_append_cons]
    rw [processLines_append]
    congr 1
    have hsmall : splitNl ((splitNl (buffer ++ c)).getLastD [] ++ cs.flatten) =
        ((splitNl (buffer ++ c)).getLastD [] ++ (splitNl cs.flatten).headD []) ::
          (splitNl cs.flatten).tail := by
      rw [splitNl_append, splitNl_no_newline _ hins]
      simp
    rw [hsmall]

/-- **C3.** The `firecrawl-<domain>` streaming transform converts every
upstream stream into: first the chunk with delta role `assistant` and
empty content, then one `chat.completion.chunk` content event per
completed upstream line whose `0:"..."` payload parses as a JSON string
(lines that do not parse are silently skipped), then the final chunk with
empty delta and finish_reason `stop`, and finally the literal
`data: [DONE]` line — in that order; concretely, `0:"hi"` yields a
content chunk while the truncated `0:"hi` and a non-`0:` line yield
none. -/
theorem C3_stream_transform :
    (∀ chunks : List (List Char),
      transformStream chunks =
        ChatChunk.initial ::
          ((splitNl chunks.flatten).dropLast.filterMap
            (fun l => (parseContentLine l).map ChatChunk.content) ++
            [ChatChunk.final, ChatChunk.done])) ∧
    parseContentLine ['0', ':', '"', 'h', 'i', '"'] = some ['h', 'i'] ∧
    parseContentLine ['0', ':', '"', 'h', 'i'] = none ∧
    parseContentLine ['d', 'a', 't', 'a', ':', ' ', 'x'] = none := by
  refine ⟨fun chunks => ?_, by decide, by decide, by decide⟩
  unfold transformStream
  rw [streamLoop_eq chunks [] (by simp)]
  rfl

/-! ## Theorems for claims C6 and C7 -/

/-- Counterexample to C6 as stated: a POST with both `X-Use-Groq` and
`X-Use-OpenAI` set to `'true'`, `GROQ_API_KEY` set and `OPENAI_API_KEY`
unset is forwarded to Groq — an external provider request is issued and
the 500 "OpenAI API key not configured" error is not returned, although
the request's `X-Use-OpenAI` header equals `'true'` and `OPENAI_API_KEY`
is unset. -/
theorem C6_claim_counterexample :
    (completionsPOST (some "true") (some "true") (some "gk") none none false).1 =
      [ProxyEffect.externalGroq] ∧
    (completionsPOST (some "true") (some "true") (some "gk") none none false).2 =
      ProxyResponse.forwarded ∧
    (completionsPOST (some "true") (some "true") (some "gk") none none false).2 ≠
      ProxyResponse.jsonError 500 "OpenAI API key not configured" "server_error" := by
  refine ⟨rfl, rfl, ?_⟩
  decide

/-- **C6 (amended).** If `X-Use-Groq` equals `'true'` and `GROQ_API_KEY`
is unset, the proxy returns 500 with the `server_error` object
"Groq API key not configured" and sends no request; if `X-Use-OpenAI`
equals `'true'`, `X-Use-Groq` does **not** equal `'true'`, and
`OPENAI_API_KEY` is unset, it returns 500 with "OpenAI API key not
configured" and sends no request. (The claim's OpenAI half is false
without the `X-Use-Groq` proviso, because the Groq header is consulted
first.) -/
theorem C6_key_missing_errors (useGroqHdr useOpenAIHdr : Option String)
    (groqKey openaiKey : Option String) (model : Option String) (stream : Bool) :
    ((useGroqHdr == some "true") = true → truthy groqKey = false →
      completionsPOST useGroqHdr useOpenAIHdr groqKey openaiKey model stream =
        ([], .jsonError 500 "Groq API key not configured" "server_error")) ∧
    ((useOpenAIHdr == some "true") = true → (useGroqHdr == some "true") = false →
      truthy openaiKey = false →
      completionsPOST useGroqHdr useOpenAIHdr groqKey openaiKey model stream =
        ([], .jsonError 500 "OpenAI API key not configured" "server_error")) := by
  constructor
  · intro hg hk
    simp [completionsPOST, hg, hk]
  · intro ho hg hk
    simp [completionsPOST, hg, ho, hk]

/-- Witness for C6 (amended): concrete requests with the respective key
missing receive the respective 500 error and produce no outgoing
request. -/
theorem C6_key_missing_errors_witness :
    completionsPOST (some "true") none none (some "ok") none false =
      ([], .jsonError 500 "Groq API key not configured" "server_error") ∧
    completionsPOST none (some "true") (some "gk") none none false =
      ([], .jsonError 500 "OpenAI API key not configured" "server_error") :=
  ⟨(C6_key_missing_errors (some "true") none none (some "ok") none false).1
      (by decide) (by decide),
    (C6_key_missing_errors none (some "true") (some "gk") none none false).2
      (by decide) (by decide) (by decide)⟩

/-- **C7.** When a rate limiter is configured and the per-client-IP limit
is exceeded, the scrape route returns 429 with `success: false` and the
`X-RateLimit-Limit` / `X-RateLimit-Remaining` headers from the limiter
result, and neither reads any API key nor issues a scrape call. -/
theorem C7_rate_limit_first (r : RateLimitResult) (xff xrip : Option String)
    (envKey hdrKey : Option String) (hasUrl hasUrls : Bool)
    (hr : r.success = false) :
    scrapePOST (some r) xff xrip envKey hdrKey hasUrl hasUrls =
      ([.limitCheck (clientIp xff xrip)],
        .rateLimited 429 false
          [("X-RateLimit-Limit", toString r.limit),
            ("X-RateLimit-Remaining", toString r.remaining)]) ∧
    ScrapeEffect.readApiKey ∉ (scrapePOST (some r) xff xrip envKey hdrKey hasUrl hasUrls).1 ∧
    ScrapeEffect.scrapeCall ∉ (scrapePOST (some r) xff xrip envKey hdrKey hasUrl hasUrls).1 := by
  have h : scrapePOST (some r) xff xrip envKey hdrKey hasUrl hasUrls =
      ([.limitCheck (clientIp xff xrip)],
        .rateLimited 429 false
          [("X-RateLimit-Limit", toString r.limit),
            ("X-RateLimit-Remaining", toString r.remaining)]) := by
    simp [scrapePOST, hr]
  refine ⟨h, ?_, ?_⟩ <;> rw [h] <;> simp

/-- Witness for C7: a concrete rejected limiter result yields the 429
response with its headers and no further effects. -/
theorem C7_rate_limit_first_witness :
    scrapePOST (some ⟨false, 50, 0⟩) (some "1.2.3.4, 5.6.7.8") none (some "fk") none
        true false =
      ([.limitCheck (clientIp (some "1.2.3.4, 5.6.7.8") none)],
        .rateLimited 429 false
          [("X-RateLimit-Limit", toString (50 : Nat)),
            ("X-RateLimit-Remaining", toString (0 : Nat))]) :=
  (C7_rate_limit_first ⟨false, 50, 0⟩ (some "1.2.3.4, 5.6.7.8") none (some "fk") none
    true false rfl).1

end Firestarter
